import Mathlib

/-!
Shallow embedding of the Python-JobScraper repository:
`part1_setup.py` (table schema), `part2_scrape.py` (listing harvester and
bulk ingestor) and `part3_scrape_JD.py` (description backfiller).
External collaborators (HTTP, BeautifulSoup selector results, Selenium page
fetches, PostgreSQL) are modelled at their interface: a parsed list item is a
record of what each CSS selector yields, a page fetch is an oracle value, and
the database is a list of rows plus the SERIAL counter.
-/

namespace JobScraper

/-- Whether the first character list is an initial segment of the second. -/
def startsWithChars : List Char → List Char → Bool
  | [], _ => true
  | _ :: _, [] => false
  | c :: cs, d :: ds => c = d && startsWithChars cs ds

/-- Whether the first character list occurs contiguously in the second. -/
def occursIn (needle : List Char) : List Char → Bool
  | [] => startsWithChars needle []
  | d :: ds => startsWithChars needle (d :: ds) || occursIn needle ds

/-- Substring test: `containsSub needle hay` is true when `needle` occurs in
`hay` (models Python `needle in hay`). -/
def containsSub (needle hay : String) : Bool :=
  occursIn needle.data hay.data

/-- Drop leading space characters from a character list.  PostgreSQL
`trim(x)` with no explicit character set removes space characters only. -/
def dropLeadingSpaces : List Char → List Char
  | [] => []
  | c :: cs => if c = ' ' then dropLeadingSpaces cs else c :: cs

/-- PostgreSQL `trim(s)`: remove leading and trailing spaces. -/
def pgTrim (s : String) : String :=
  String.mk (dropLeadingSpaces ((dropLeadingSpaces s.data.reverse).reverse))

/-- Python truthiness of an `Optional[str]`: `None` and `""` are falsy. -/
def truthy : Option String → Bool
  | none => false
  | some s => s != ""

/-- Python `a or b` on `Optional[str]` values. -/
def pyOr (a b : Option String) : Option String :=
  if truthy a then a else b

/-- `urllib.parse.urljoin` restricted to the href shapes the site produces:
absolute URLs are kept, site-relative paths are resolved against the base. -/
def urljoin (base path : String) : String :=
  if containsSub "://" path then path
  else if startsWithChars ['/'] path.data then base ++ path
  else base ++ "/" ++ path

/-- A candidate record as produced by `JobScraper.scrape_weworkremotely`
(`part2_scrape.py` lines 130-137): every key is present, `location` already
defaulted, `salary_info` possibly absent, `job_description` not yet set. -/
structure Candidate where
  job_title : String
  company_name : String
  location : String
  job_url : String
  salary_info : Option String
  source_site : String
  deriving DecidableEq

/-- A persisted row of the `job_listings` table (`part1_setup.py` lines
63-73): `id SERIAL PRIMARY KEY`, `job_url ... UNIQUE`,
`scraped_at TIMESTAMPTZ DEFAULT CURRENT_TIMESTAMP` (timestamps abstracted
to `Nat`). -/
structure JobRecord where
  id : Nat
  job_title : String
  company_name : String
  location : String
  job_url : String
  salary_info : Option String
  job_description : Option String
  source_site : String
  scraped_at : Nat
  deriving DecidableEq

/-- The persisted state: the rows of `job_listings` in insertion order plus
the next value of the `id` SERIAL sequence. -/
structure Store where
  records : List JobRecord
  nextId : Nat
  deriving DecidableEq

/-- A freshly created table: no rows, SERIAL sequence at 1. -/
def emptyStore : Store := { records := [], nextId := 1 }

/-- Whether some persisted row already carries the url `u` (the
`ON CONFLICT (job_url)` check against the UNIQUE constraint). -/
def urlExists (rs : List JobRecord) (u : String) : Bool :=
  rs.any (fun r => r.job_url == u)

/-- The row built for a candidate by the INSERT in
`DatabaseManager.bulk_insert_jobs` (`part2_scrape.py` line 47): explicit
columns from the candidate, `id` from the sequence, `job_description` NULL,
`scraped_at` defaulted to the transaction timestamp `now`. -/
def mkRecord (rid now : Nat) (j : Candidate) : JobRecord :=
  { id := rid
    job_title := j.job_title
    company_name := j.company_name
    location := j.location
    job_url := j.job_url
    salary_info := j.salary_info
    job_description := none
    source_site := j.source_site
    scraped_at := now }

/-- Row-level effect of `INSERT ... ON CONFLICT (job_url) DO NOTHING` over a
candidate sequence: each candidate row is appended unless its url already
conflicts with an existing or just-inserted row.  Returns the new rows, the
new sequence value and the total number of rows actually inserted.  (The
rows and sequence value are what the database holds after the statement;
the total is a reasoning device — the value the program *returns* is the
paged rowcount of `execValuesAux` below.) -/
def insertAll (now : Nat) : List JobRecord → Nat → List Candidate →
    List JobRecord × Nat × Nat
  | rs, ni, [] => (rs, ni, 0)
  | rs, ni, j :: js =>
    if urlExists rs j.job_url then insertAll now rs ni js
    else
      let rest := insertAll now (rs ++ [mkRecord ni now j]) (ni + 1) js
      (rest.1, rest.2.1, rest.2.2 + 1)

/-- Default `page_size` of `psycopg2.extras.execute_values`. -/
def pageSize : Nat := 100

/-- `psycopg2.extras.execute_values` on the conflict-skipping INSERT:
candidates are executed in pages of `pageSize` rows (one `cursor.execute`
per page, all in one transaction, so later pages see earlier pages' rows in
the conflict check).  `fill` counts the candidates consumed by the current
page and `cnt` the rows it inserted; a full page followed by more input
starts a fresh page, resetting both.  The returned count is therefore
`cursor.rowcount` after the call: the rows inserted by the *last* page
only. -/
def execValuesAux (now : Nat) : List JobRecord → Nat → Nat → Nat →
    List Candidate → List JobRecord × Nat × Nat
  | rs, ni, _, cnt, [] => (rs, ni, cnt)
  | rs, ni, fill, cnt, j :: js =>
    let fill2 := if fill = pageSize then 0 else fill
    let cnt2 := if fill = pageSize then 0 else cnt
    if urlExists rs j.job_url then
      execValuesAux now rs ni (fill2 + 1) cnt2 js
    else
      execValuesAux now (rs ++ [mkRecord ni now j]) (ni + 1) (fill2 + 1)
        (cnt2 + 1) js

/-- `DatabaseManager.bulk_insert_jobs` (`part2_scrape.py` lines 42-57):
empty input returns 0 before any database work; a database error during the
batch (`dbError`) rolls the whole transaction back, is logged, and the call
returns 0; otherwise the batch commits and `cursor.rowcount` as left by
`execute_values` — the rowcount of its last ≤`pageSize`-row page — is
returned. -/
def bulk_insert_jobs (dbError : Bool) (s : Store) (now : Nat)
    (jobs : List Candidate) : Store × Nat :=
  if jobs.isEmpty then (s, 0)
  else if dbError then (s, 0)
  else
    let t := execValuesAux now s.records s.nextId 0 0 jobs
    ({ records := t.1, nextId := t.2.1 }, t.2.2)

/-- The WHERE clause of `DatabaseManager.get_jobs_to_update`
(`part3_scrape_JD.py` line 60): `job_description IS NULL OR
trim(job_description) = ''`. -/
def isIncomplete (r : JobRecord) : Bool :=
  match r.job_description with
  | none => true
  | some d => pgTrim d == ""

/-- Comparison used by `ORDER BY id`. -/
def idLe (a b : JobRecord) : Prop := a.id ≤ b.id

instance : DecidableRel idLe := fun a b => Nat.decLe a.id b.id

instance : IsTotal JobRecord idLe := ⟨fun a b => Nat.le_total a.id b.id⟩

instance : IsTrans JobRecord idLe := ⟨fun _ _ _ h h2 => Nat.le_trans h h2⟩

/-- `DatabaseManager.get_jobs_to_update` (`part3_scrape_JD.py` lines 55-68):
SELECT id, job_url of rows with NULL or blank description, ORDER BY id; the
Python-truthiness guard `if limit:` appends `LIMIT {limit}` only when
`limit` is neither `None` nor `0`. -/
def get_jobs_to_update (s : Store) (limit : Option Nat) :
    List (Nat × String) :=
  let rows := (List.insertionSort idLe (s.records.filter isIncomplete)).map
    (fun r => (r.id, r.job_url))
  match limit with
  | none => rows
  | some l => if l = 0 then rows else rows.take l

/-- `DatabaseManager.update_description` (`part3_scrape_JD.py` lines 70-75):
`UPDATE job_listings SET job_description = %s WHERE id = %s`, committed
immediately. -/
def update_description (s : Store) (jid : Nat) (description : String) :
    Store :=
  { s with
    records := s.records.map (fun r =>
      if r.id = jid then { r with job_description := some description }
      else r) }

/-- One parsed `<li>` of the listing page, recorded at the selector
interface: the hrefs of all its anchors in document order, what each CSS
selector of `scrape_weworkremotely` yields (`get_text(strip=True)` of the
first match, `none` when no node matches), and the raw texts of the
salary-category entries (`none` when the categories container is absent). -/
structure Item where
  links : List String
  primaryTitle : Option String
  legacyTitle : Option String
  primaryCompany : Option String
  legacyCompany : Option String
  primaryLocation : Option String
  legacyLocation : Option String
  salaryCategories : Option (List String)
  deriving DecidableEq

/-- Fixed site base URL (`part2_scrape.py` line 68). -/
def baseUrl : String := "https://weworkremotely.com"

/-- `JobScraper._find_job_link` (`part2_scrape.py` lines 87-95): the first
anchor href containing `/remote-jobs/`. -/
def find_job_link (item : Item) : Option String :=
  item.links.find? (fun href => containsSub "/remote-jobs/" href)

/-- `JobScraper._find_salary` (`part2_scrape.py` lines 75-85): `none` when
the categories container is missing, otherwise the stripped text of the
first category entry containing a currency marker. -/
def find_salary (item : Item) : Option String :=
  match item.salaryCategories with
  | none => none
  | some cats =>
    (cats.find? (fun t => t.contains (Char.ofNat 36) || containsSub "USD" t)).map
      String.trim

/-- The per-item body of the loop in `JobScraper.scrape_weworkremotely`
(`part2_scrape.py` lines 112-137): skip items without a job link; resolve
the url; extract title, company and location by the primary selector with
Python-`or` fallback to the legacy selector; default a falsy location to
"Remote"; emit the candidate only when title and company are both truthy. -/
def processItem (item : Item) : Option Candidate :=
  match find_job_link item with
  | none => none
  | some jobPath =>
    let jobUrl := urljoin baseUrl jobPath
    let jobTitle := pyOr item.primaryTitle item.legacyTitle
    let company := pyOr item.primaryCompany item.legacyCompany
    let location := pyOr item.primaryLocation item.legacyLocation
    if truthy jobTitle && truthy company then
      some { job_title := jobTitle.getD ""
             company_name := company.getD ""
             location := if truthy location then location.getD "" else "Remote"
             job_url := jobUrl
             salary_info := find_salary item
             source_site := "WeWorkRemotely" }
    else none

/-- `JobScraper.scrape_weworkremotely` (`part2_scrape.py` lines 97-142): a
failed request (timeout, DNS, non-2xx) yields `[]`; otherwise each list item
of the category section is processed in document order. -/
def scrape_weworkremotely (page : Option (List Item)) : List Candidate :=
  match page with
  | none => []
  | some items => items.filterMap processItem

/-- Phase 1 (`main` of `part2_scrape.py`): harvest the listing page, then
bulk-insert the candidates; reports the number newly inserted. -/
def phase1 (page : Option (List Item)) (s : Store) (now : Nat) :
    Store × Nat :=
  bulk_insert_jobs false s now (scrape_weworkremotely page)

/-- Outcome of rendering one detail page and waiting for the description
element (the Selenium interaction inside `scrape_full_description`). -/
inductive FetchOutcome where
  | success (text : String)
  | timeout
  | error
  deriving DecidableEq

/-- `scrape_full_description` (`part3_scrape_JD.py` lines 86-103): the
element text on success, `None` on `TimeoutException` and on any other
exception (both are logged, neither propagates). -/
def scrape_full_description (outcome : FetchOutcome) : Option String :=
  match outcome with
  | .success t => some t
  | .timeout => none
  | .error => none

/-- The per-record loop of `main` in `part3_scrape_JD.py` (lines 128-141):
for each fetched {id, job_url} row in order, scrape the description; a
truthy result is written back immediately via `update_description` and
counted, otherwise the record is skipped and the loop continues.  Returns
the final store and `updated_count`. -/
def backfillLoop (outcomes : Nat → String → FetchOutcome) :
    Store → List (Nat × String) → Store × Nat
  | s, [] => (s, 0)
  | s, (jid, url) :: rest =>
    let description := scrape_full_description (outcomes jid url)
    if truthy description then
      let next := backfillLoop outcomes
        (update_description s jid (description.getD "")) rest
      (next.1, next.2 + 1)
    else backfillLoop outcomes s rest

/-- The states reachable by this system's operations: the fresh table, bulk
insertion (phase 1, with or without a database error) and description
write-back (phase 2). -/
inductive Reachable : Store → Prop
  | init : Reachable emptyStore
  | insert (err : Bool) (now : Nat) (jobs : List Candidate) {s : Store} :
      Reachable s → Reachable (bulk_insert_jobs err s now jobs).1
  | update (jid : Nat) (d : String) {s : Store} :
      Reachable s → Reachable (update_description s jid d)

/-- A concrete fresh candidate. -/
def cand1 : Candidate :=
  { job_title := "Senior Full Stack Engineer", company_name := "Acme",
    location := "Remote",
    job_url := "https://weworkremotely.com/remote-jobs/acme-senior",
    salary_info := some "$120,000 or more USD",
    source_site := "WeWorkRemotely" }

/-- A second concrete fresh candidate with a distinct url. -/
def cand2 : Candidate :=
  { job_title := "Backend Developer", company_name := "Globex",
    location := "Worldwide",
    job_url := "https://weworkremotely.com/remote-jobs/globex-backend",
    salary_info := none, source_site := "WeWorkRemotely" }

/-- A listing item exposing only the legacy markup: no primary-selector
nodes, title and company only under the legacy selectors, no location
markup at all. -/
def exampleLegacyItem : Item :=
  { links := ["/company/acme", "/remote-jobs/acme-senior"],
    primaryTitle := none, legacyTitle := some "Senior Full Stack Engineer",
    primaryCompany := none, legacyCompany := some "Acme",
    primaryLocation := none, legacyLocation := none,
    salaryCategories := none }

/-- A concrete stored row with id `i` and description `d`. -/
def mkStored (i : Nat) (d : Option String) : JobRecord :=
  { id := i, job_title := "T", company_name := "C", location := "Remote",
    job_url := "https://weworkremotely.com/remote-jobs/job-" ++ toString i,
    salary_info := none, job_description := d,
    source_site := "WeWorkRemotely", scraped_at := 0 }

/-- Three stored rows: descriptions `""`, `"   "` and `"Remote position."`. -/
def exampleStore : Store :=
  { records := [mkStored 1 (some ""), mkStored 2 (some "   "),
                mkStored 3 (some "Remote position.")], nextId := 4 }

/-- Five stored rows, all with NULL description (all incomplete). -/
def store5 : Store :=
  { records := [mkStored 1 none, mkStored 2 none, mkStored 3 none,
                mkStored 4 none, mkStored 5 none], nextId := 6 }

/-- Detail-page outcomes where record 3 times out and every other record
renders successfully. -/
def outcomes5 : Nat → String → FetchOutcome := fun jid _ =>
  if jid = 3 then .timeout else .success "Full job description."

/-! ## Helper lemmas -/

theorem truthy_pyOr (a b : Option String) :
    truthy (pyOr a b) = (truthy a || truthy b) := by
  by_cases h : truthy a = true <;> simp [pyOr, h]

theorem urlExists_iff {rs : List JobRecord} {u : String} :
    urlExists rs u = true ↔ u ∈ rs.map (fun r => r.job_url) := by
  simp [urlExists, List.any_eq_true, List.mem_map]

theorem urlExists_append (rs ex : List JobRecord) (u : String) :
    urlExists (rs ++ ex) u = (urlExists rs u || urlExists ex u) := by
  simp [urlExists, List.any_append]

theorem insertAll_spec (now : Nat) :
    ∀ (js : List Candidate) (rs : List JobRecord) (ni : Nat),
    ∃ ext, (insertAll now rs ni js).1 = rs ++ ext ∧
      (insertAll now rs ni js).2.2 = ext.length ∧
      (∀ r ∈ ext, urlExists rs r.job_url = false) ∧
      (∀ j ∈ js, urlExists (insertAll now rs ni js).1 j.job_url = true)
  | [], rs, ni => ⟨[], by simp [insertAll]⟩
  | j :: js, rs, ni => by
    by_cases h : urlExists rs j.job_url = true
    · obtain ⟨ext, h1, h2, h3, h4⟩ := insertAll_spec now js rs ni
      refine ⟨ext, ?_, ?_, h3, ?_⟩
      · simpa [insertAll, h] using h1
      · simpa [insertAll, h] using h2
      · intro j2 hj2
        rcases List.mem_cons.mp hj2 with hj2 | hj2
        · subst hj2
          simp only [insertAll, h, if_pos]
          rw [h1, urlExists_append, h]
          simp
        · simpa [insertAll, h] using h4 j2 hj2
    · obtain ⟨ext, h1, h2, h3, h4⟩ :=
        insertAll_spec now js (rs ++ [mkRecord ni now j]) (ni + 1)
      rw [Bool.not_eq_true] at h
      refine ⟨mkRecord ni now j :: ext, ?_, ?_, ?_, ?_⟩
      · simp only [insertAll, h, Bool.false_eq_true, if_false]
        rw [h1, List.append_assoc]
        rfl
      · simp only [insertAll, h, Bool.false_eq_true, if_false]
        rw [h2]; simp
      · intro r hr
        rcases List.mem_cons.mp hr with hr | hr
        · subst hr; simpa [mkRecord] using h
        · have := h3 r hr
          rw [urlExists_append, Bool.or_eq_false_iff] at this
          exact this.1
      · intro j2 hj2
        rcases List.mem_cons.mp hj2 with hj2 | hj2
        · subst hj2
          simp only [insertAll, h, Bool.false_eq_true, if_false]
          rw [h1, List.append_assoc, urlExists_append]
          have : urlExists ([mkRecord ni now j2] ++ ext) j2.job_url = true := by
            rw [urlExists_append]
            simp [urlExists, mkRecord]
          rw [this]; simp
        · simpa [insertAll, h] using h4 j2 hj2

theorem insertAll_all_exists (now : Nat) :
    ∀ (js : List Candidate) (rs : List JobRecord) (ni : Nat),
    (∀ j ∈ js, urlExists rs j.job_url = true) →
    insertAll now rs ni js = (rs, ni, 0)
  | [], rs, ni, _ => rfl
  | j :: js, rs, ni, h => by
    have hj := h j (List.mem_cons_self j js)
    simp only [insertAll, hj, if_pos]
    exact insertAll_all_exists now js rs ni
      (fun j2 hj2 => h j2 (List.mem_cons_of_mem j hj2))

theorem insertAll_nodup (now : Nat) :
    ∀ (js : List Candidate) (rs : List JobRecord) (ni : Nat),
    (rs.map (fun r => r.job_url)).Nodup →
    ((insertAll now rs ni js).1.map (fun r => r.job_url)).Nodup
  | [], rs, ni, h => h
  | j :: js, rs, ni, h => by
    by_cases hc : urlExists rs j.job_url = true
    · simpa [insertAll, hc] using insertAll_nodup now js rs ni h
    · rw [Bool.not_eq_true] at hc
      simp only [insertAll, hc, Bool.false_eq_true, if_false]
      refine insertAll_nodup now js (rs ++ [mkRecord ni now j]) (ni + 1) ?_
      rw [List.map_append]
      apply List.Nodup.append h (by simp)
      intro u hu hu2
      simp only [List.map_cons, List.map_nil, List.mem_singleton, mkRecord]
        at hu2
      subst hu2
      exact absurd (urlExists_iff.mpr hu) (by simp [hc])

theorem execValuesAux_records (now : Nat) :
    ∀ (js : List Candidate) (rs : List JobRecord) (ni fill cnt : Nat),
    (execValuesAux now rs ni fill cnt js).1 = (insertAll now rs ni js).1 ∧
    (execValuesAux now rs ni fill cnt js).2.1 = (insertAll now rs ni js).2.1
  | [], _, _, _, _ => ⟨rfl, rfl⟩
  | j :: js, rs, ni, fill, cnt => by
    by_cases h : urlExists rs j.job_url = true
    · have ih := execValuesAux_records now js rs ni
        ((if fill = pageSize then 0 else fill) + 1)
        (if fill = pageSize then 0 else cnt)
      exact ⟨by simpa [execValuesAux, insertAll, h] using ih.1,
        by simpa [execValuesAux, insertAll, h] using ih.2⟩
    · rw [Bool.not_eq_true] at h
      have ih := execValuesAux_records now js (rs ++ [mkRecord ni now j])
        (ni + 1) ((if fill = pageSize then 0 else fill) + 1)
        ((if fill = pageSize then 0 else cnt) + 1)
      exact ⟨by simpa [execValuesAux, insertAll, h] using ih.1,
        by simpa [execValuesAux, insertAll, h] using ih.2⟩

theorem execValuesAux_all_exists (now : Nat) :
    ∀ (js : List Candidate) (rs : List JobRecord) (ni fill : Nat),
    (∀ j ∈ js, urlExists rs j.job_url = true) →
    execValuesAux now rs ni fill 0 js = (rs, ni, 0)
  | [], _, _, _, _ => rfl
  | j :: js, rs, ni, fill, h => by
    have hj := h j (List.mem_cons_self j js)
    have ih := execValuesAux_all_exists now js rs ni
      ((if fill = pageSize then 0 else fill) + 1)
      (fun j2 hj2 => h j2 (List.mem_cons_of_mem j hj2))
    simpa [execValuesAux, hj, ite_self] using ih

theorem execValuesAux_count (now : Nat) :
    ∀ (js : List Candidate) (rs : List JobRecord) (ni fill cnt : Nat),
    fill + js.length ≤ pageSize →
    (execValuesAux now rs ni fill cnt js).2.2 =
      cnt + (insertAll now rs ni js).2.2
  | [], rs, ni, fill, cnt, _ => by simp [execValuesAux, insertAll]
  | j :: js, rs, ni, fill, cnt, h => by
    have hfill : fill ≠ pageSize := by
      rw [List.length_cons] at h; omega
    by_cases hd : urlExists rs j.job_url = true
    · have ih := execValuesAux_count now js rs ni (fill + 1) cnt
        (by rw [List.length_cons] at h; omega)
      simpa [execValuesAux, insertAll, hd, hfill] using ih
    · rw [Bool.not_eq_true] at hd
      have ih := execValuesAux_count now js (rs ++ [mkRecord ni now j])
        (ni + 1) (fill + 1) (cnt + 1)
        (by rw [List.length_cons] at h; omega)
      simp only [execValuesAux, insertAll, hd, Bool.false_eq_true, if_false,
        hfill, ite_false]
      rw [ih]
      omega

theorem bulk_insert_single_page (s : Store) (now : Nat)
    (jobs : List Candidate) (h : jobs.length ≤ pageSize) :
    ∃ ext, (bulk_insert_jobs false s now jobs).1.records = s.records ++ ext ∧
      (bulk_insert_jobs false s now jobs).2 = ext.length ∧
      ∀ r ∈ ext, urlExists s.records r.job_url = false := by
  by_cases he : jobs.isEmpty
  · exact ⟨[], by simp [bulk_insert_jobs, he]⟩
  · obtain ⟨ext, h1, h2, h3, -⟩ := insertAll_spec now jobs s.records s.nextId
    have hrec := (execValuesAux_records now jobs s.records s.nextId 0 0).1
    have hcnt := execValuesAux_count now jobs s.records s.nextId 0 0
      (by simpa using h)
    refine ⟨ext, ?_, ?_, h3⟩
    · simp only [bulk_insert_jobs, he, Bool.false_eq_true, if_false]
      rw [hrec, h1]
    · simp only [bulk_insert_jobs, he, Bool.false_eq_true, if_false]
      rw [hcnt, h2]
      simp

theorem update_description_map_url (s : Store) (jid : Nat) (d : String) :
    ((update_description s jid d).records.map (fun r => r.job_url)) =
      s.records.map (fun r => r.job_url) := by
  simp only [update_description, List.map_map]
  apply List.map_congr_left
  intro r _
  by_cases h : r.id = jid <;> simp [h]

theorem bulk_insert_dup_noop (s : Store) (now : Nat) (j : Candidate)
    (h : urlExists s.records j.job_url = true) :
    bulk_insert_jobs false s now [j] = (s, 0) := by
  have h5 := execValuesAux_all_exists now [j] s.records s.nextId 0
    (by intro j2 hj2; rw [List.mem_singleton] at hj2; subst hj2; exact h)
  simp [bulk_insert_jobs, h5]

theorem bulk_insert_nodup (err : Bool) (s : Store) (now : Nat)
    (jobs : List Candidate)
    (h : (s.records.map (fun r => r.job_url)).Nodup) :
    ((bulk_insert_jobs err s now jobs).1.records.map
      (fun r => r.job_url)).Nodup := by
  by_cases he : jobs.isEmpty
  · simpa [bulk_insert_jobs, he] using h
  · cases err
    · have hrec := (execValuesAux_records now jobs s.records s.nextId 0 0).1
      have hn := insertAll_nodup now jobs s.records s.nextId h
      simp only [bulk_insert_jobs, he, Bool.false_eq_true, if_false]
      rw [hrec]
      exact hn
    · simpa [bulk_insert_jobs, he] using h

/-- `n` candidates with pairwise-distinct fresh urls `u0`, `u1`, ... -/
def freshCands (n : Nat) : List Candidate :=
  (List.range n).map (fun i =>
    { job_title := "T", company_name := "C", location := "Remote",
      job_url := "u" ++ toString i, salary_info := none,
      source_site := "WeWorkRemotely" })

/-! ## Claims -/

set_option maxRecDepth 4000 in
/-- Claim C1 (code bug): the call is meant to report how many records were
newly added, and does so for single-page batches — 2 fresh candidates into
an empty store return 2, 100 fresh return 100 — but `execute_values` pages
the batch at 100 rows and `cursor.rowcount` reflects only the last page, so
101 fresh candidates into an empty store add 101 rows while the call
returns 1. -/
theorem C1_rowcount_last_page :
    (bulk_insert_jobs false emptyStore 0 (freshCands 101)).1.records.length
      = 101 ∧
    (bulk_insert_jobs false emptyStore 0 (freshCands 101)).2 = 1 ∧
    (bulk_insert_jobs false emptyStore 0 (freshCands 100)).2 = 100 ∧
    (bulk_insert_jobs false emptyStore 7 [cand1, cand2]).2 = 2 := by
  exact ⟨by decide, by decide, by decide, by decide⟩

/-- Claim C6: on a database error the whole batch rolls back (the store is
unchanged) and the call returns 0 instead of raising; an empty input batch
returns 0 immediately, before the transaction or error handling is ever
reached. -/
theorem C6_bulk_insert_error_atomic (s : Store) (now : Nat) :
    (∀ jobs : List Candidate, bulk_insert_jobs true s now jobs = (s, 0)) ∧
    (∀ err : Bool, bulk_insert_jobs err s now [] = (s, 0)) := by
  constructor
  · intro jobs
    by_cases he : jobs.isEmpty <;> simp [bulk_insert_jobs, he]
  · intro err; simp [bulk_insert_jobs]

/-- Claim C2: running phase 1 (harvest then bulk insert) twice against an
unchanged listing page leaves the store exactly as after one run, and the
second run reports 0 newly inserted. -/
theorem C2_phase1_idempotent (page : Option (List Item)) (s : Store)
    (now1 now2 : Nat) :
    (phase1 page (phase1 page s now1).1 now2).1 = (phase1 page s now1).1 ∧
    (phase1 page (phase1 page s now1).1 now2).2 = 0 := by
  cases hc : scrape_weworkremotely page with
  | nil => constructor <;> simp [phase1, hc, bulk_insert_jobs]
  | cons j js =>
    obtain ⟨-, -, -, -, h4⟩ :=
      insertAll_spec now1 (j :: js) s.records s.nextId
    have hs1 : phase1 page s now1 =
        ({ records := (execValuesAux now1 s.records s.nextId 0 0 (j :: js)).1,
           nextId :=
             (execValuesAux now1 s.records s.nextId 0 0 (j :: js)).2.1 },
         (execValuesAux now1 s.records s.nextId 0 0 (j :: js)).2.2) := by
      simp [phase1, hc, bulk_insert_jobs]
    have hall : ∀ j2 ∈ j :: js,
        urlExists (execValuesAux now1 s.records s.nextId 0 0 (j :: js)).1
          j2.job_url = true := by
      rw [(execValuesAux_records now1 (j :: js) s.records s.nextId 0 0).1]
      exact h4
    have h5 := execValuesAux_all_exists now2 (j :: js)
      (execValuesAux now1 s.records s.nextId 0 0 (j :: js)).1
      (execValuesAux now1 s.records s.nextId 0 0 (j :: js)).2.1 0 hall
    rw [hs1]
    constructor
    · simp [phase1, hc, bulk_insert_jobs, h5]
    · simp [phase1, hc, bulk_insert_jobs, h5]

/-- Claim C5: in every reachable store state the persisted `job_url` values
are pairwise distinct (so for any two candidates with the same url at most
one record persists), and inserting a candidate whose url already exists is
a no-op returning 0 rather than an error. -/
theorem C5_url_unique (s : Store) (h : Reachable s) :
    (s.records.map (fun r => r.job_url)).Nodup ∧
    (∀ (now : Nat) (j : Candidate), urlExists s.records j.job_url = true →
      bulk_insert_jobs false s now [j] = (s, 0)) := by
  refine ⟨?_, fun now j hj => bulk_insert_dup_noop s now j hj⟩
  induction h with
  | init => simp [emptyStore]
  | insert err now jobs h ih => exact bulk_insert_nodup err _ now jobs ih
  | update jid d h ih =>
    rw [update_description_map_url]; exact ih

/-- Witness for C5: the state reached by bulk-inserting a batch that repeats
`cand1` has pairwise-distinct urls. -/
theorem C5_url_unique_witness :
    (((bulk_insert_jobs false emptyStore 7 [cand1, cand2, cand1]).1).records.map
      (fun r => r.job_url)).Nodup :=
  (C5_url_unique _
    (Reachable.insert false 7 [cand1, cand2, cand1] Reachable.init)).1

/-- Claim C3: for every store and positive supplied limit,
`get_jobs_to_update` returns exactly the (id, job_url) projections of the
records with NULL-or-blank description (as a permutation), in non-decreasing
id order, capped at the limit when one is supplied and uncapped when none
is; concretely, descriptions `""` and `"   "` qualify and
`"Remote position."` does not. -/
theorem C3_get_jobs_to_update (s : Store) (l : Nat) (hl : 0 < l) :
    (get_jobs_to_update s none).Perm
      ((s.records.filter isIncomplete).map (fun r => (r.id, r.job_url))) ∧
    (get_jobs_to_update s none).Pairwise (fun a b => a.1 ≤ b.1) ∧
    get_jobs_to_update s (some l) = (get_jobs_to_update s none).take l ∧
    (get_jobs_to_update s (some l)).length ≤ l ∧
    get_jobs_to_update exampleStore none =
      [(1, "https://weworkremotely.com/remote-jobs/job-1"),
       (2, "https://weworkremotely.com/remote-jobs/job-2")] ∧
    isIncomplete (mkStored 1 (some "")) = true ∧
    isIncomplete (mkStored 2 (some "   ")) = true ∧
    isIncomplete (mkStored 3 (some "Remote position.")) = false := by
  have hperm := List.perm_insertionSort idLe (s.records.filter isIncomplete)
  have hsort := List.sorted_insertionSort idLe (s.records.filter isIncomplete)
  have htake : get_jobs_to_update s (some l) =
      (get_jobs_to_update s none).take l := by
    simp [get_jobs_to_update, Nat.pos_iff_ne_zero.mp hl]
  refine ⟨hperm.map _, ?_, htake, ?_, by decide, by decide, by decide,
    by decide⟩
  · show ((List.insertionSort idLe (s.records.filter isIncomplete)).map
        (fun r => (r.id, r.job_url))).Pairwise (fun a b => a.1 ≤ b.1)
    exact List.Pairwise.map _ (fun a b hab => hab) hsort
  · rw [htake, List.length_take]
    exact Nat.min_le_left _ _

/-- Witness for C3: the limit-1 query on the three-record example store is
the take-1 prefix of the unlimited query. -/
theorem C3_get_jobs_to_update_witness :
    get_jobs_to_update exampleStore (some 1) =
      (get_jobs_to_update exampleStore none).take 1 :=
  (C3_get_jobs_to_update exampleStore 1 (by decide)).2.2.1

/-- Claim C10: a limit of 0 is falsy in the guard `if limit:`, so
`get_jobs_to_update` with limit 0 returns all incomplete records exactly as
with no limit — concretely, a nonempty sequence on the example store, not an
empty one. -/
theorem C10_zero_limit (s : Store) :
    get_jobs_to_update s (some 0) = get_jobs_to_update s none ∧
    get_jobs_to_update exampleStore (some 0) =
      [(1, "https://weworkremotely.com/remote-jobs/job-1"),
       (2, "https://weworkremotely.com/remote-jobs/job-2")] :=
  ⟨by simp [get_jobs_to_update], by decide⟩

/-- Claim C9: `update_description` changes only the `job_description` field
of the record(s) carrying the given id: the sequence counter and the row
count are untouched, every row keeps its id, title, company, location, url,
salary, source and scraped_at, rows with a different id are entirely
unchanged, and the row with the given id ends with the new description. -/
theorem C9_update_description_frame (s : Store) (jid : Nat) (d : String) :
    (update_description s jid d).nextId = s.nextId ∧
    List.Forall₂ (fun r r2 =>
      r2.id = r.id ∧ r2.job_title = r.job_title ∧
      r2.company_name = r.company_name ∧ r2.location = r.location ∧
      r2.job_url = r.job_url ∧ r2.salary_info = r.salary_info ∧
      r2.source_site = r.source_site ∧ r2.scraped_at = r.scraped_at ∧
      (r.id ≠ jid → r2 = r) ∧ (r.id = jid → r2.job_description = some d))
      s.records (update_description s jid d).records := by
  refine ⟨rfl, ?_⟩
  simp only [update_description]
  rw [List.forall₂_map_right_iff]
  apply List.forall₂_same.mpr
  intro r _
  by_cases h : r.id = jid <;> simp [h]

/-- Witness for C9: a concrete description write on the example store keeps
the sequence counter. -/
theorem C9_update_description_frame_witness :
    (update_description exampleStore 1 "Now filled.").nextId =
      exampleStore.nextId :=
  (C9_update_description_frame exampleStore 1 "Now filled.").1

/-- Claim C4: a timeout or error while fetching one record's detail page
leaves the store exactly as if that record had not been in the work list
(state unchanged, remaining records still processed); in the concrete
five-record scenario where record 3 times out, exactly 4 records end up
updated, the only still-incomplete row is the untouched original record 3,
and it is exactly what the next run would fetch. -/
theorem C4_backfill_isolation (outcomes : Nat → String → FetchOutcome)
    (s : Store) (jid : Nat) (url : String) (rest : List (Nat × String))
    (h : outcomes jid url = FetchOutcome.timeout ∨
      outcomes jid url = FetchOutcome.error) :
    backfillLoop outcomes s ((jid, url) :: rest) =
      backfillLoop outcomes s rest ∧
    (backfillLoop outcomes5 store5 (get_jobs_to_update store5 none)).2 = 4 ∧
    (backfillLoop outcomes5 store5
      (get_jobs_to_update store5 none)).1.records.filter isIncomplete =
      [mkStored 3 none] ∧
    get_jobs_to_update
      (backfillLoop outcomes5 store5 (get_jobs_to_update store5 none)).1
      none = [(3, "https://weworkremotely.com/remote-jobs/job-3")] := by
  refine ⟨?_, by decide, by decide, by decide⟩
  rcases h with h | h <;>
    simp [backfillLoop, scrape_full_description, h, truthy]

/-- Witness for C4: skipping the timed-out record 3 at the head of a
singleton work list leaves the store as the empty work list would. -/
theorem C4_backfill_isolation_witness :
    backfillLoop outcomes5 store5
        ((3, "https://weworkremotely.com/remote-jobs/job-3") :: []) =
      backfillLoop outcomes5 store5 [] :=
  (C4_backfill_isolation outcomes5 store5 3
    "https://weworkremotely.com/remote-jobs/job-3" [] (Or.inl rfl)).1

/-- Claim C7: for a list item with a detail-page link, the produced record is
discarded exactly when both title strategies or both company strategies are
falsy (equivalently, the harvest output for that item is empty); when a
record is produced its title and company come from the primary selector when
that is truthy and from the legacy selector otherwise; and the concrete
legacy-only item still yields its record through the fallback path. -/
theorem C7_dual_strategy (item : Item) (p : String)
    (hlink : find_job_link item = some p) :
    (processItem item = none ↔
      ((truthy item.primaryTitle = false ∧ truthy item.legacyTitle = false) ∨
       (truthy item.primaryCompany = false ∧
        truthy item.legacyCompany = false))) ∧
    (processItem item = none ↔ scrape_weworkremotely (some [item]) = []) ∧
    (∀ c, processItem item = some c →
      (truthy item.primaryTitle = true →
        c.job_title = item.primaryTitle.getD "") ∧
      (truthy item.primaryTitle = false →
        c.job_title = item.legacyTitle.getD "") ∧
      (truthy item.primaryCompany = true →
        c.company_name = item.primaryCompany.getD "") ∧
      (truthy item.primaryCompany = false →
        c.company_name = item.legacyCompany.getD "")) ∧
    (∃ c, processItem exampleLegacyItem = some c ∧
      c.job_title = "Senior Full Stack Engineer" ∧
      c.company_name = "Acme") := by
  refine ⟨?_, ?_, ?_, ?_⟩
  · cases htp : truthy item.primaryTitle <;>
      cases htl : truthy item.legacyTitle <;>
        cases hcp : truthy item.primaryCompany <;>
          cases hcl : truthy item.legacyCompany <;>
            simp [processItem, hlink, pyOr, htp, htl, hcp, hcl]
  · cases hpi : processItem item <;>
      simp [scrape_weworkremotely, hpi]
  · intro c hc
    refine ⟨?_, ?_, ?_, ?_⟩ <;> intro ht <;>
      cases htl : truthy item.legacyTitle <;>
        cases hcl : truthy item.legacyCompany <;>
          cases hcp : truthy item.primaryCompany <;>
            cases htp : truthy item.primaryTitle <;>
              simp_all [processItem, hlink, pyOr] <;>
                (subst hc; simp)
  · exact ⟨{ job_title := "Senior Full Stack Engineer",
             company_name := "Acme", location := "Remote",
             job_url := "https://weworkremotely.com/remote-jobs/acme-senior",
             salary_info := none, source_site := "WeWorkRemotely" },
           by decide, rfl, rfl⟩

/-- Witness for C7: the legacy-only item yields its record through the
fallback path. -/
theorem C7_dual_strategy_witness :
    ∃ c, processItem exampleLegacyItem = some c ∧
      c.job_title = "Senior Full Stack Engineer" ∧
      c.company_name = "Acme" :=
  (C7_dual_strategy exampleLegacyItem "/remote-jobs/acme-senior"
    (by decide)).2.2.2

/-- Claim C8: for a list item with a detail-page link, truthy title and
company, and both location strategies falsy, a record is still emitted and
its location is the sentinel "Remote". -/
theorem C8_location_default (item : Item) (p : String)
    (hlink : find_job_link item = some p)
    (ht : truthy (pyOr item.primaryTitle item.legacyTitle) = true)
    (hc : truthy (pyOr item.primaryCompany item.legacyCompany) = true)
    (hl1 : truthy item.primaryLocation = false)
    (hl2 : truthy item.legacyLocation = false) :
    ∃ c, processItem item = some c ∧ c.location = "Remote" := by
  have hloc : truthy (pyOr item.primaryLocation item.legacyLocation)
      = false := by
    rw [truthy_pyOr, hl1, hl2]; rfl
  refine ⟨{ job_title := (pyOr item.primaryTitle item.legacyTitle).getD ""
            company_name :=
              (pyOr item.primaryCompany item.legacyCompany).getD ""
            location := "Remote"
            job_url := urljoin baseUrl p
            salary_info := find_salary item
            source_site := "WeWorkRemotely" }, ?_, rfl⟩
  simp [processItem, hlink, ht, hc, hloc]

/-- Witness for C8: the legacy-only item, which has no location markup at
all, is emitted with location "Remote". -/
theorem C8_location_default_witness :
    ∃ c, processItem exampleLegacyItem = some c ∧ c.location = "Remote" :=
  C8_location_default exampleLegacyItem "/remote-jobs/acme-senior"
    (by decide) (by decide) (by decide) (by decide) (by decide)

end JobScraper
